import Mathlib

/-!
Verification of the PageRank demo notebook
(`cugraph/link_analysis/Pagerank.ipynb`).

The notebook's own code is: loading a tab-delimited edge list, invoking a
PageRank routine, an inline loop over the result rows that tracks the best
score seen, the declarative column maximum `pr_max`, and the reporter
`print_pagerank_threshold` that filters the score table at a threshold and
prints one line per surviving row.

The result table (`gdf_page`) is embedded as a list of rows, each row a pair
of a vertex identifier and a rational score, in the table's row order.
The PageRank computation itself and the CSV reader live in external
libraries (cuGraph / cuDF / NetworkX), so they are modelled from the
specification where a claim needs them; everything else is translated
directly from the notebook cells.
-/

attribute [local semireducible] Rat.mul Rat.add Rat.inv Rat.sub

/-- An edge record: a source and a destination vertex identifier
(the notebook reads two integer columns `src`, `dst`). -/
structure Edge where
  src : Int
  dst : Int
deriving DecidableEq, Repr

/-- An edge list: ordered, duplicates permitted. -/
abbrev EdgeList := List Edge

/-- A score table row is a (vertex, pagerank score) pair; a score table is
the ordered list of rows of the result dataframe. -/
abbrev ScoreTable := List (Int × ℚ)
/-! ### The reporter (notebook cell defining `print_pagerank_threshold`)

```python
def print_pagerank_threshold(_df, t=0) :
    filtered = _df.query('pagerank >= @t')
    for i in range(len(filtered)):
        print("Best vertex is " + str(filtered['vertex'][i]) +
            " with score of " + str(filtered['pagerank'][i]))
```
-/

/-- Embeds `_df.query('pagerank >= @t')`: keep the rows whose score is at least
`t`, in their original order. -/
def queryGE (df : ScoreTable) (t : ℚ) : ScoreTable :=
  df.filter (fun r => decide (t ≤ r.2))

/-- The text printed for one surviving row. -/
def reportLine (r : Int × ℚ) : String :=
  "Best vertex is " ++ toString r.1 ++ " with score of " ++ toString r.2

/-- The sequence of lines printed by `print_pagerank_threshold`: one line
per row of the filtered table, in the filtered table's row order. -/
def print_pagerank_threshold (df : ScoreTable) (t : ℚ) : List String :=
  (queryGE df t).map reportLine
/-! ### The inline max scan (notebook cell)

```python
bestScore = gdf_page['pagerank'][0]
bestVert = gdf_page['vertex'][0]
for i in range(len(gdf_page)):
    if gdf_page['pagerank'][i] > bestScore:
        bestScore = gdf_page['pagerank'][i]
        bestVert = gdf_page['vertex'][i]
```
-/

/-- One iteration of the loop body: replace the current best row only on a
strictly greater score. -/
def scanUpdate (b r : Int × ℚ) : Int × ℚ :=
  if b.2 < r.2 then r else b

/-- The `for` loop over the rows, threading the current best row. -/
def maxScanLoop (rows : List (Int × ℚ)) (b : Int × ℚ) : Int × ℚ :=
  rows.foldl scanUpdate b

/-- The whole inline scan.  The initial reads `gdf_page['pagerank'][0]` and
`gdf_page['vertex'][0]` are unguarded in the source; embedded totally they
are the `head?` lookup, so the scan yields `none` on an empty table.  The
loop then runs over all rows (including row 0, where the strict comparison
never fires). -/
def inlineMaxScan (df : ScoreTable) : Option (Int × ℚ) :=
  match df.head? with
  | none => none
  | some r0 => some (maxScanLoop df r0)
/-! ### The declarative pipeline (notebook cells `pr_max`, `sort_pr`) -/

/-- Embeds `Series.max()` on a column: `none` on an empty column, otherwise the
fold of `max` over the entries. -/
def seriesMax (l : List ℚ) : Option ℚ :=
  match l with
  | [] => none
  | a :: rest => some (rest.foldl max a)

/-- Embeds `pr_max = gdf_page['pagerank'].max()`. -/
def pr_max (df : ScoreTable) : Option ℚ :=
  seriesMax (df.map Prod.snd)

/-- The earliest row of the table attaining the column maximum (the
characterization claimed for the inline scan's result). -/
def firstMaxRow (df : ScoreTable) : Option (Int × ℚ) :=
  match pr_max df with
  | none => none
  | some m => df.find? (fun r => decide (r.2 = m))

/-- The running maximum of a score column, starting from `a`. -/
def colMaxFrom (l : List ℚ) (a : ℚ) : ℚ :=
  l.foldl max a

/-! ### The computation step, modelled from the specification

The PageRank iteration itself lives in the external libraries
(`nx.pagerank`, `cugraph.pagerank`), not in this repository, so it is
modelled from the specification (§4.2): damped power iteration over the
undirected graph of the edge list, an iteration cap, and a convergence
tolerance below which the loop exits early, returning one score per
distinct vertex of the edge list. -/

/-- Modelled from the spec: the distinct vertices appearing in the edge
list (as sources or destinations), each exactly once, in first-use order
of the dedup. -/
def vertexList (es : EdgeList) : List Int :=
  (es.flatMap (fun e => [e.src, e.dst])).dedup

/-- Modelled from the spec: `u` and `v` are joined by some edge (the
notebooks build undirected graphs, so edges are symmetrized). -/
def adjacent (es : EdgeList) (u v : Int) : Bool :=
  es.any (fun e => (e.src == u && e.dst == v) || (e.src == v && e.dst == u))

/-- Modelled from the spec: the neighbors of `v` in the undirected graph. -/
def neighbors (es : EdgeList) (v : Int) : List Int :=
  (vertexList es).filter (adjacent es v)

/-- The score of vertex `v` in a score table (0 for an absent key). -/
def lookupScore (scores : ScoreTable) (v : Int) : ℚ :=
  match scores.find? (fun r => r.1 == v) with
  | some r => r.2
  | none => 0

/-- Modelled from the spec: one damped power-iteration step with damping
factor `d` over `n` vertices:
`x'(v) = (1 - d)/n + d * Σ_u∈N(v) x(u)/deg(u)`. -/
def pagerankStep (es : EdgeList) (d : ℚ) (scores : ScoreTable) : ScoreTable :=
  (vertexList es).map (fun v => (v,
    (1 - d) / ((vertexList es).length : ℚ) +
      d * ((neighbors es v).map
        (fun u => lookupScore scores u / ((neighbors es u).length : ℚ))).sum))

/-- The L1 distance between two score tables with identical key order. -/
def totalDiff (a b : ScoreTable) : ℚ :=
  ((a.zip b).map (fun p => |p.1.2 - p.2.2|)).sum

/-- Modelled from the spec: iterate up to the cap, exiting early once the
change falls below `n * tol`; non-convergence within the cap is not an
error, the current table is returned as-is. -/
def pagerankLoop (es : EdgeList) (d tol : ℚ) : Nat → ScoreTable → ScoreTable
  | 0, scores => scores
  | k + 1, scores =>
    let next := pagerankStep es d scores
    if totalDiff next scores < ((vertexList es).length : ℚ) * tol then next
    else pagerankLoop es d tol k next

/-- Modelled from the spec: the Reference Computation (§4.2).  Starts from
the uniform distribution over the distinct vertices and iterates. -/
def pagerank (es : EdgeList) (d : ℚ) (maxIter : Nat) (tol : ℚ) : ScoreTable :=
  pagerankLoop es d tol maxIter
    ((vertexList es).map (fun v => (v, 1 / ((vertexList es).length : ℚ))))

/-! ### Parameter handling of the accelerated computation

The notebook's own documentation of `cugraph.pagerank` (cell 0) states:
for `max_iter`, "If this value is lower or equal to 0 cuGraph will use the
default value, which is 100", and for `tol`, "If this value is 0.0f,
cuGraph will use the default value which is 0.00001". -/

/-- Modelled from the spec: the spec's `ConfigurationError` class, carried
in the result type so that failure is expressible; the documented library
behavior never produces it. -/
inductive ConfigurationError where
  | nonPositiveParam
deriving DecidableEq, Repr

/-- The documented `max_iter` handling: a non-positive cap is replaced by
the default 100. -/
def resolve_max_iter (m : Int) : Nat :=
  if m ≤ 0 then 100 else m.toNat

/-- The documented `tol` handling: a zero tolerance is replaced by the
default 1e-5. -/
def resolve_tol (t : ℚ) : ℚ :=
  if t = 0 then 1/100000 else t

/-- Modelled from the spec: `cugraph.pagerank` as called by the notebook,
with the parameter handling its in-notebook documentation describes.  No
validation failure exists: defaults are substituted instead. -/
def cugraph_pagerank (es : EdgeList) (alpha : ℚ) (m : Int) (t : ℚ) :
    Except ConfigurationError ScoreTable :=
  Except.ok (pagerank es alpha (resolve_max_iter m) (resolve_tol t))

/-! ### The Dataset Loader, modelled from the specification

The notebook loads the edge list with `cudf.read_csv(datafile,
names=["src", "dst"], delimiter='\t', dtype=["int32", "int32"])`; the
reader itself is external library code, so the loader is modelled from the
specification (§4.1): given a field delimiter, each line must split into
exactly the expected number of integer fields, and a malformed line aborts
the whole load with a `DataFormatError`. -/

/-- Modelled from the spec: the loader's failure class, carrying the
offending line. -/
structure DataFormatError where
  badLine : String
deriving DecidableEq, Repr

/-- Accumulate decimal digits; any non-digit character fails the field. -/
def parseDigitsAux : List Char → Nat → Option Nat
  | [], acc => some acc
  | c :: cs, acc =>
    if c.isDigit then parseDigitsAux cs (acc * 10 + (c.toNat - '0'.toNat))
    else none

/-- Modelled from the spec: parse one integer field (optional sign, at
least one digit, nothing else). -/
def parseIntField : List Char → Option Int
  | [] => none
  | '-' :: rest =>
    match rest with
    | [] => none
    | _ => (parseDigitsAux rest 0).map (fun n => -(n : Int))
  | cs => (parseDigitsAux cs 0).map (fun n => (n : Int))

/-- Split a line at every occurrence of the delimiter. -/
def splitFields (delim : Char) : List Char → List (List Char)
  | [] => [[]]
  | c :: rest =>
    match splitFields delim rest with
    | [] => [[]]
    | f :: fs => if c = delim then [] :: f :: fs else (c :: f) :: fs

/-- Modelled from the spec: parse one line into an edge record; the line
must have exactly two integer fields (the notebook reads the two columns
`src` and `dst`). -/
def parseLine (delim : Char) (line : String) : Option Edge :=
  match (splitFields delim line.data).map parseIntField with
  | [some a, some b] => some ⟨a, b⟩
  | _ => none

/-- Modelled from the spec: the Dataset Loader over the file's lines.  The
first malformed line aborts the load; no partial edge list is returned. -/
def loadEdgeList (delim : Char) : List String → Except DataFormatError EdgeList
  | [] => Except.ok []
  | l :: rest =>
    match parseLine delim l with
    | none => Except.error ⟨l⟩
    | some e =>
      match loadEdgeList delim rest with
      | Except.error err => Except.error err
      | Except.ok es => Except.ok (e :: es)

/-! ### Sanity checks on concrete inputs -/

example : inlineMaxScan [((1 : Int), (1 : ℚ)/2), (2, 7/10)] = some (2, 7/10) := by decide
example : inlineMaxScan [((5 : Int), (1 : ℚ)), (2, 1)] = some (5, 1) := by decide
example : pr_max [((1 : Int), (1 : ℚ)/2), (2, 7/10)] = some (7/10) := by decide
example : queryGE [((1 : Int), (1 : ℚ)/2), (2, 7/10)] (7/10) = [(2, 7/10)] := by decide
-- sanity checks of the parser on concrete lines
example : parseLine '\t' "1\t2" = some ⟨1, 2⟩ := by decide
example : parseLine '\t' "1\t-27" = some ⟨1, -27⟩ := by decide
example : parseLine '\t' "1\t2\t3" = none := by decide
example : parseLine '\t' "1" = none := by decide
example : parseLine '\t' "1\tx" = none := by decide
example : parseLine '\t' "1\t" = none := by decide

/-! ### Helper lemmas about the inline scan -/

theorem scanUpdate_snd (b r : Int × ℚ) : (scanUpdate b r).2 = max b.2 r.2 := by
  unfold scanUpdate
  split
  · exact (max_eq_right (le_of_lt (by assumption))).symm
  · exact (max_eq_left (le_of_not_lt (by assumption))).symm

theorem colMaxFrom_cons (x : ℚ) (l : List ℚ) (a : ℚ) :
    colMaxFrom (x :: l) a = colMaxFrom l (max a x) := rfl

theorem le_colMaxFrom (l : List ℚ) (a : ℚ) : a ≤ colMaxFrom l a := by
  induction l generalizing a with
  | nil => exact le_refl a
  | cons x l ih => exact le_trans (le_max_left a x) (ih (max a x))

theorem mem_le_colMaxFrom (l : List ℚ) (a x : ℚ) (hx : x ∈ l) : x ≤ colMaxFrom l a := by
  induction l generalizing a with
  | nil => cases hx
  | cons y l ih =>
    rcases List.mem_cons.mp hx with h | h
    · subst h
      exact le_trans (le_max_right a x) (le_colMaxFrom l (max a x))
    · exact ih (max a y) h

theorem maxScanLoop_snd (rows : List (Int × ℚ)) (b : Int × ℚ) :
    (maxScanLoop rows b).2 = colMaxFrom (rows.map Prod.snd) b.2 := by
  induction rows generalizing b with
  | nil => rfl
  | cons r rest ih =>
    show (maxScanLoop rest (scanUpdate b r)).2 = colMaxFrom (r.2 :: rest.map Prod.snd) b.2
    rw [ih (scanUpdate b r), colMaxFrom_cons, scanUpdate_snd]

/-- The inline loop lands on the first row of `b :: rows` whose score equals
the final running maximum. -/
theorem maxScanLoop_eq_find (rows : List (Int × ℚ)) (b : Int × ℚ) :
    some (maxScanLoop rows b) =
      (b :: rows).find? (fun r => decide (r.2 = colMaxFrom (rows.map Prod.snd) b.2)) := by
  induction rows generalizing b with
  | nil =>
    show some b = List.find? _ [b]
    rw [List.find?_cons_of_pos _ (by simp [colMaxFrom])]
  | cons r rest ih =>
    have hstep : maxScanLoop (r :: rest) b = maxScanLoop rest (scanUpdate b r) := rfl
    have hmax : colMaxFrom ((r :: rest).map Prod.snd) b.2 =
        colMaxFrom (rest.map Prod.snd) (scanUpdate b r).2 := by
      rw [scanUpdate_snd]; rfl
    rw [hstep, hmax]
    by_cases hbr : b.2 < r.2
    · -- the head `b` is strictly below the new best, hence below the max
      have hb' : scanUpdate b r = r := by unfold scanUpdate; rw [if_pos hbr]
      have hblt : b.2 < colMaxFrom (rest.map Prod.snd) (scanUpdate b r).2 := by
        calc b.2 < r.2 := hbr
        _ = (scanUpdate b r).2 := by rw [hb']
        _ ≤ colMaxFrom (rest.map Prod.snd) (scanUpdate b r).2 :=
          le_colMaxFrom _ _
      rw [List.find?_cons_of_neg _ (by simpa using ne_of_lt hblt), ih (scanUpdate b r), hb']
    · have hb' : scanUpdate b r = b := by unfold scanUpdate; rw [if_neg hbr]
      rw [hb']
      by_cases hbm : b.2 = colMaxFrom (rest.map Prod.snd) b.2
      · -- head attains the max: both sides return it at once
        rw [List.find?_cons_of_pos _ (by simpa using hbm)]
        rw [ih b, List.find?_cons_of_pos _ (by simpa using hbm)]
      · -- head misses the max, and so does `r` (its score is ≤ the head's)
        have hrm : ¬ r.2 = colMaxFrom (rest.map Prod.snd) b.2 := by
          intro h
          exact hbm (le_antisymm (le_colMaxFrom _ _)
            (h ▸ le_of_not_lt hbr))
        rw [List.find?_cons_of_neg _ (by simpa using hbm),
          List.find?_cons_of_neg _ (by simpa using hrm),
          ih b, List.find?_cons_of_neg _ (by simpa using hbm)]

/-- On a nonempty table the scan computes `maxScanLoop` over the whole table
seeded with row 0; the seed is never replaced by an equal score, so this
equals the loop over the tail. -/
theorem inlineMaxScan_cons (r0 : Int × ℚ) (rest : List (Int × ℚ)) :
    inlineMaxScan (r0 :: rest) = some (maxScanLoop rest r0) := by
  show some (maxScanLoop (r0 :: rest) r0) = some (maxScanLoop rest r0)
  have : scanUpdate r0 r0 = r0 := by unfold scanUpdate; rw [if_neg (lt_irrefl r0.2)]
  show some (maxScanLoop rest (scanUpdate r0 r0)) = some (maxScanLoop rest r0)
  rw [this]

/-! ### Key-structure lemmas for the computation -/

theorem map_fst_mk_pairs (f : Int → ℚ) (l : List Int) :
    (l.map (fun v => (v, f v))).map Prod.fst = l := by
  induction l with
  | nil => rfl
  | cons x l ih => simp [ih]

theorem pagerankStep_map_fst (es : EdgeList) (d : ℚ) (s : ScoreTable) :
    (pagerankStep es d s).map Prod.fst = vertexList es :=
  map_fst_mk_pairs _ _

theorem pagerankLoop_map_fst (es : EdgeList) (d tol : ℚ) :
    ∀ (k : Nat) (s : ScoreTable), s.map Prod.fst = vertexList es →
      (pagerankLoop es d tol k s).map Prod.fst = vertexList es := by
  intro k
  induction k with
  | zero => intro s hs; exact hs
  | succ k ih =>
    intro s hs
    simp only [pagerankLoop]
    split
    · exact pagerankStep_map_fst es d s
    · exact ih _ (pagerankStep_map_fst es d s)

theorem pagerank_map_fst (es : EdgeList) (d : ℚ) (m : Nat) (t : ℚ) :
    (pagerank es d m t).map Prod.fst = vertexList es :=
  pagerankLoop_map_fst es d t m _ (map_fst_mk_pairs _ _)

/-! ### The claims -/

/-- C1 (counterexample): the reporter does not emit its entries in
descending score order.  On the table `[(1, 1/2), (2, 7/10)]` with
threshold `0` it emits `(1, 1/2)` before `(2, 7/10)`, so an earlier entry
has a strictly smaller score than a later one. -/
theorem c1_counterexample :
    ¬ List.Pairwise (fun a b : Int × ℚ => b.2 ≤ a.2)
      (queryGE [((1 : Int), (1 : ℚ)/2), (2, 7/10)] 0) := by
  decide

/-- C1 (amended): the reporter emits exactly the rows with score at or
above the threshold, in the score table's original row order (the output
is a sublist of the table); it performs no sorting of its own, so it is in
non-increasing score order whenever the input table already is. -/
theorem c1_reporter_preserves_order (df : ScoreTable) (t : ℚ) :
    List.Sublist (queryGE df t) df ∧
      (List.Pairwise (fun a b : Int × ℚ => b.2 ≤ a.2) df →
        List.Pairwise (fun a b : Int × ℚ => b.2 ≤ a.2) (queryGE df t)) :=
  ⟨List.filter_sublist df, fun hp => List.Pairwise.sublist (List.filter_sublist df) hp⟩

/-- Witness for C1 (amended) at a concrete sorted table. -/
theorem c1_witness :
    List.Sublist (queryGE [((2 : Int), (7 : ℚ)/10), (1, 1/2)] 0)
        [((2 : Int), (7 : ℚ)/10), (1, 1/2)] ∧
      List.Pairwise (fun a b : Int × ℚ => b.2 ≤ a.2)
        (queryGE [((2 : Int), (7 : ℚ)/10), (1, 1/2)] 0) :=
  ⟨(c1_reporter_preserves_order [((2 : Int), (7 : ℚ)/10), (1, 1/2)] 0).1,
    (c1_reporter_preserves_order [((2 : Int), (7 : ℚ)/10), (1, 1/2)] 0).2 (by decide)⟩

/-- C2 (counterexample): with the non-positive iteration cap 0 the
computation does not fail with a `ConfigurationError`; it runs with the
documented default cap of 100 and returns a score table. -/
theorem c2_counterexample :
    cugraph_pagerank [⟨1, 2⟩] (17/20) 0 (1/100000) =
      Except.ok (pagerank [⟨1, 2⟩] (17/20) 100 (1/100000)) := by
  rfl

/-- C2 (amended): a non-positive iteration cap is silently replaced by the
documented default of 100 and the computation proceeds; no
`ConfigurationError` is ever raised. -/
theorem c2_default_substitution (es : EdgeList) (alpha : ℚ) (m : Int) (t : ℚ)
    (hm : m ≤ 0) :
    cugraph_pagerank es alpha m t =
      Except.ok (pagerank es alpha 100 (resolve_tol t)) := by
  unfold cugraph_pagerank resolve_max_iter
  rw [if_pos hm]

/-- Witness for C2 (amended) at the cap `-5`. -/
theorem c2_witness :
    cugraph_pagerank [⟨1, 2⟩] (17/20) (-5) (1/100000) =
      Except.ok (pagerank [⟨1, 2⟩] (17/20) 100 (resolve_tol (1/100000))) :=
  c2_default_substitution _ _ _ _ (by decide)

/-- C3: the reporter emits exactly one line, of the form
`Best vertex is <id> with score of <value>`, per table row whose score is
at or above the threshold; and when the threshold is the column maximum
and that maximum is attained by exactly one row, exactly one line is
emitted. -/
theorem c3_threshold_line_count (df : ScoreTable) (t m : ℚ) :
    print_pagerank_threshold df t = (queryGE df t).map reportLine ∧
    (print_pagerank_threshold df t).length = df.countP (fun r => decide (t ≤ r.2)) ∧
    (pr_max df = some m → df.countP (fun r => decide (r.2 = m)) = 1 →
      (print_pagerank_threshold df m).length = 1) := by
  refine ⟨rfl, ?_, ?_⟩
  · simp [print_pagerank_threshold, queryGE, List.countP_eq_length_filter]
  · intro hmax huniq
    cases df with
    | nil => exact absurd hmax (by simp [pr_max, seriesMax])
    | cons r0 rest =>
      have hmax' : some (colMaxFrom (rest.map Prod.snd) r0.2) = some m := hmax
      have hm : colMaxFrom (rest.map Prod.snd) r0.2 = m := Option.some.inj hmax'
      have hub : ∀ r ∈ r0 :: rest, r.2 ≤ m := by
        intro r hr
        rcases List.mem_cons.mp hr with h | h
        · subst h
          exact hm ▸ le_colMaxFrom _ _
        · exact hm ▸ mem_le_colMaxFrom _ _ _ (List.mem_map_of_mem Prod.snd h)
      have hfil : (r0 :: rest).filter (fun r => decide (m ≤ r.2)) =
          (r0 :: rest).filter (fun r => decide (r.2 = m)) :=
        List.filter_congr (fun r hr => decide_eq_decide.mpr
          ⟨fun h2 => le_antisymm (hub r hr) h2, fun h2 => le_of_eq h2.symm⟩)
      calc (print_pagerank_threshold (r0 :: rest) m).length
          = ((r0 :: rest).filter (fun r => decide (m ≤ r.2))).length := by
            simp [print_pagerank_threshold, queryGE]
        _ = ((r0 :: rest).filter (fun r => decide (r.2 = m))).length := by rw [hfil]
        _ = 1 := by rw [← List.countP_eq_length_filter]; exact huniq

/-- Witness for C3: on a table whose maximum `7/10` is unique, thresholding
at the maximum emits exactly one line. -/
theorem c3_witness :
    (print_pagerank_threshold [((1 : Int), (1 : ℚ)/2), (2, 7/10)] (7/10)).length = 1 :=
  (c3_threshold_line_count [((1 : Int), (1 : ℚ)/2), (2, 7/10)] (7/10) (7/10)).2.2
    (by decide) (by decide)

/-- C4: the computation's score table has exactly one key per distinct
vertex of the edge list: its key list is duplicate-free, and a vertex is a
key exactly when it occurs in the edge list as a source or destination. -/
theorem c4_score_table_keys (es : EdgeList) (d : ℚ) (m : Nat) (t : ℚ) :
    ((pagerank es d m t).map Prod.fst).Nodup ∧
      ∀ v : Int, v ∈ (pagerank es d m t).map Prod.fst ↔
        ∃ e ∈ es, v = e.src ∨ v = e.dst := by
  rw [pagerank_map_fst]
  refine ⟨List.nodup_dedup _, ?_⟩
  intro v
  simp [vertexList, List.mem_dedup, List.mem_flatMap]

/-- C5: the loader either succeeds, returning exactly the parse of every
line in order (possible only when every line parses into the expected two
integer fields), or — as soon as some line is malformed — fails with a
`DataFormatError` and returns no partial edge list. -/
theorem c5_loader_all_or_nothing (delim : Char) (lines : List String) :
    ((∀ l ∈ lines, (parseLine delim l).isSome = true) →
        loadEdgeList delim lines = Except.ok (lines.filterMap (parseLine delim))) ∧
      ((∃ l ∈ lines, parseLine delim l = none) →
        ∃ err, loadEdgeList delim lines = Except.error err) := by
  induction lines with
  | nil =>
    constructor
    · intro _; rfl
    · rintro ⟨l, hl, _⟩; cases hl
  | cons l rest ih =>
    constructor
    · intro hall
      rcases Option.isSome_iff_exists.mp (hall l (List.mem_cons_self l rest)) with ⟨e, he⟩
      have hrest := ih.1 (fun x hx => hall x (List.mem_cons_of_mem _ hx))
      simp [loadEdgeList, he, hrest, List.filterMap_cons]
    · rintro ⟨x, hx, hnone⟩
      rcases List.mem_cons.mp hx with h | h
      · subst h
        exact ⟨⟨x⟩, by simp [loadEdgeList, hnone]⟩
      · cases hpl : parseLine delim l with
        | none => exact ⟨⟨l⟩, by simp [loadEdgeList, hpl]⟩
        | some e =>
          rcases ih.2 ⟨x, h, hnone⟩ with ⟨err, herr⟩
          exact ⟨err, by simp [loadEdgeList, hpl, herr]⟩

/-- Witness for C5: a well-formed two-line file loads whole; a file with a
malformed second line fails with a `DataFormatError`. -/
theorem c5_witness :
    loadEdgeList '\t' ["1\t2", "2\t3"] =
        Except.ok (["1\t2", "2\t3"].filterMap (parseLine '\t')) ∧
      ∃ err, loadEdgeList '\t' ["1\t2", "oops"] = Except.error err :=
  ⟨(c5_loader_all_or_nothing '\t' ["1\t2", "2\t3"]).1 (by decide),
    (c5_loader_all_or_nothing '\t' ["1\t2", "oops"]).2 ⟨"oops", by decide, by decide⟩⟩

/-- C6: loading the two-line file `1\t2`, `2\t3` and running the
computation with the default parameters (damping `0.85`, cap `100`,
tolerance `1e-5`) yields a table with exactly the keys 1, 2, 3, every
score strictly positive, and the scores summing to 1 within `1e-5`. -/
theorem c6_two_line_scenario :
    loadEdgeList '\t' ["1\t2", "2\t3"] = Except.ok [⟨1, 2⟩, ⟨2, 3⟩] ∧
      ((pagerank [⟨1, 2⟩, ⟨2, 3⟩] (17/20) 100 (1/100000)).map Prod.fst = [1, 2, 3]) ∧
      (∀ r ∈ pagerank [⟨1, 2⟩, ⟨2, 3⟩] (17/20) 100 (1/100000), 0 < r.2) ∧
      |((pagerank [⟨1, 2⟩, ⟨2, 3⟩] (17/20) 100 (1/100000)).map Prod.snd).sum - 1|
        < 1/100000 := by
  refine ⟨rfl, by decide, by decide, by decide⟩

/-- C7: on a nonempty score table, the inline iteration-based scan agrees
with the declarative pipeline: its best score is the column maximum
`pr_max`, and its best vertex is a row attaining that maximum. -/
theorem c7_inline_scan_equals_pipeline (df : ScoreTable) (h : df ≠ []) :
    ∃ v s, inlineMaxScan df = some (v, s) ∧ pr_max df = some s ∧ (v, s) ∈ df := by
  cases df with
  | nil => exact absurd rfl h
  | cons r0 rest =>
    have hfind := (maxScanLoop_eq_find rest r0).symm
    have hmem : maxScanLoop rest r0 ∈ r0 :: rest := List.mem_of_find?_eq_some hfind
    have hp := List.find?_some hfind
    have hsc : (maxScanLoop rest r0).2 = colMaxFrom (rest.map Prod.snd) r0.2 :=
      of_decide_eq_true hp
    refine ⟨(maxScanLoop rest r0).1, (maxScanLoop rest r0).2, ?_, ?_, ?_⟩
    · rw [inlineMaxScan_cons]
    · show some (colMaxFrom (rest.map Prod.snd) r0.2) = some (maxScanLoop rest r0).2
      rw [hsc]
    · exact hmem

/-- Witness for C7 at a concrete two-row table. -/
theorem c7_witness :
    ∃ v s, inlineMaxScan [((1 : Int), (1 : ℚ)/2), (2, 7/10)] = some (v, s) ∧
      pr_max [((1 : Int), (1 : ℚ)/2), (2, 7/10)] = some s ∧
      (v, s) ∈ [((1 : Int), (1 : ℚ)/2), (2, 7/10)] :=
  c7_inline_scan_equals_pipeline _ (List.cons_ne_nil _ _)

/-- C8: determinism — two runs of the computation on equal inputs and equal
parameters produce identical score tables. -/
theorem c8_determinism (es₁ es₂ : EdgeList) (d₁ d₂ : ℚ) (m₁ m₂ : Nat) (t₁ t₂ : ℚ)
    (hes : es₁ = es₂) (hd : d₁ = d₂) (hm : m₁ = m₂) (ht : t₁ = t₂) :
    pagerank es₁ d₁ m₁ t₁ = pagerank es₂ d₂ m₂ t₂ := by
  subst hes; subst hd; subst hm; subst ht; rfl

/-- Witness for C8: two runs on the one-edge graph. -/
theorem c8_witness :
    pagerank [⟨1, 2⟩] (17/20) 100 (1/100000) =
      pagerank [⟨1, 2⟩] (17/20) 100 (1/100000) :=
  c8_determinism _ _ _ _ _ _ _ _ rfl rfl rfl rfl

/-- C9: the inline scan's unguarded row-0 read means the empty table has no
result (`none` in the total embedding), while every nonempty table yields
one. -/
theorem c9_empty_table_scan :
    inlineMaxScan ([] : ScoreTable) = none ∧
      ∀ df : ScoreTable, df ≠ [] → (inlineMaxScan df).isSome = true := by
  refine ⟨rfl, ?_⟩
  intro df h
  cases df with
  | nil => exact absurd rfl h
  | cons r0 rest => rw [inlineMaxScan_cons]; rfl

/-- Witness for C9 at a concrete one-row table. -/
theorem c9_witness : (inlineMaxScan [((3 : Int), (1 : ℚ)/2)]).isSome = true :=
  c9_empty_table_scan.2 _ (List.cons_ne_nil _ _)

/-- C10: the inline scan returns the earliest row attaining the column
maximum (it replaces the best only on a strictly greater score), so ties
go to the lowest row index, not to the smallest vertex id: on
`[(5, 1), (2, 1)]` it returns vertex `5`, not `2`. -/
theorem c10_tie_break_first_row :
    (∀ df : ScoreTable, inlineMaxScan df = firstMaxRow df) ∧
      inlineMaxScan [((5 : Int), (1 : ℚ)), (2, 1)] = some (5, 1) := by
  constructor
  · intro df
    cases df with
    | nil => rfl
    | cons r0 rest =>
      rw [inlineMaxScan_cons]
      show _ = (r0 :: rest).find?
        (fun r => decide (r.2 = colMaxFrom (rest.map Prod.snd) r0.2))
      exact maxScanLoop_eq_find rest r0
  · decide
